import Mathlib

/-!
# Verification of the mercari keyword monitor

A shallow embedding of the orchestration script of the repository
(the file examples/monitor.py): the deduplication-by-diff poll loop of
MonitorKeyword, the bootstrap, the run loop with its exception policy,
the Alertzy push channel and the startup validation in main.

Item identifiers are the item URL strings the client returns.  Network
behaviour (what a fetch returns, which calls raise) is an explicit input:
a Cycle record describes one poll cycle's environment, and a monitor run
is a fold of the loop body over a finite schedule of cycles.
-/

namespace MercariMonitor

/-- Item detail as returned by Mercari.get_item_info. -/
structure Item where
  name : String
  price : Nat
  url : String
  desc : String
  url_photo : String
  local_url : String
  is_new : Bool
  in_stock : Bool
deriving DecidableEq, Repr

/-- charsStartWith p s decides whether p is an initial run of s. -/
def charsStartWith : List Char → List Char → Bool
  | [], _ => true
  | _ :: _, [] => false
  | a :: p, b :: s => a == b && charsStartWith p s

/-- charsContain n s decides whether n occurs as a contiguous run inside s
(the Python membership test on strings). -/
def charsContain (n : List Char) : List Char → Bool
  | [] => charsStartWith n []
  | b :: s => charsStartWith n (b :: s) || charsContain n s

/-- str.lower() as a character list: every character lowered. -/
def lowerChars (s : String) : List Char :=
  s.data.map Char.toLower

/-- Python: needle.lower() in haystack.lower(). -/
def strContainsCI (haystack needle : String) : Bool :=
  charsContain (lowerChars needle) (lowerChars haystack)

/-- The match predicate of check_for_new_items:
self.keyword.lower() in item.name.lower() and item.is_new and item.in_stock. -/
def matchPred (keyword : String) (item : Item) : Bool :=
  strContainsCI item.name keyword && item.is_new && item.in_stock

/-- The network environment of one poll cycle: whether the first-page fetch
raises, what it returns otherwise, what get_item_info returns for each
identifier (or that it raises), and whether the e-mail dispatch for an
identifier raises (the assert on the transport reply in
GMailSender.send_email_notification). -/
structure Cycle where
  firstPageExn : Bool
  firstPage : List String
  detail : String → Except Unit Item
  emailExn : String → Bool

/-- Whether the detail fetched for identifier x in cycle c passes the match
predicate (false as well when the detail fetch raises). -/
def qualifies (kw : String) (c : Cycle) (x : String) : Bool :=
  match c.detail x with
  | Except.error _ => false
  | Except.ok item => matchPred kw item

/-- set(items_on_first_page) - set(self.persisted_items): the deduplicated
first-page identifiers that are not already seen. -/
def newItems (firstPage seen : List String) : List String :=
  firstPage.dedup.filter fun x => decide (x ∉ seen)

/-- The loop over the new identifiers in check_for_new_items.  Each identifier
is appended to persisted_items BEFORE its detail fetch; a qualifying item is
dispatched to the notifiers.  Result: (persisted_items after, identifiers a
notification was dispatched for, whether an exception escaped the loop).
A detail-fetch exception escapes before any dispatch for that item; an e-mail
exception escapes after the push dispatch for that item. -/
def processNew (kw : String) (c : Cycle) : List String → List String → List String × List String × Bool
  | seen, [] => (seen, [], false)
  | seen, x :: rest =>
    let seen1 := seen ++ [x]
    match c.detail x with
    | Except.error _ => (seen1, [], true)
    | Except.ok item =>
      if matchPred kw item then
        if c.emailExn x then
          (seen1, [x], true)
        else
          let r := processNew kw c seen1 rest
          (r.1, x :: r.2.1, r.2.2)
      else
        let r := processNew kw c seen1 rest
        (r.1, r.2.1, r.2.2)

/-- MonitorKeyword.check_for_new_items: fetch the first page (the fetch itself
may raise, leaving the state untouched), diff against persisted_items, and
process each new identifier. -/
def check_for_new_items (kw : String) (seen : List String) (c : Cycle) :
    List String × List String × Bool :=
  if c.firstPageExn then (seen, [], true)
  else processNew kw c seen (newItems c.firstPage seen)

/-- The notifications dispatched by one call of check_for_new_items. -/
def notifsOf (kw : String) (seen : List String) (c : Cycle) : List String :=
  (check_for_new_items kw seen c).2.1

/-- Whether an exception escaped one call of check_for_new_items. -/
def raisedOf (kw : String) (seen : List String) (c : Cycle) : Bool :=
  (check_for_new_items kw seen c).2.2

/-- Observable actions of the run loop, for the failure policy. -/
inductive LoopEvent where
  | sleepSecs (n : Nat)
  | exnLogged
  | pollOk
deriving DecidableEq, Repr

/-- The state a monitor run accumulates: persisted_items, the identifiers a
notification was ever dispatched for, and the loop's observable actions. -/
structure RunState where
  seen : List String
  log : List String
  events : List LoopEvent
deriving DecidableEq, Repr

/-- One iteration of the while-loop of MonitorKeyword.run: sleep 60 seconds,
run check_for_new_items inside try, and on an exception log it and sleep a
further 30 seconds; state changes made before the exception persist. -/
def stepCycle (kw : String) (st : RunState) (c : Cycle) : RunState :=
  let r := check_for_new_items kw st.seen c
  { seen := r.1
    log := st.log ++ r.2.1
    events := st.events ++ [LoopEvent.sleepSecs 60] ++
      (if r.2.2 then [LoopEvent.exnLogged, LoopEvent.sleepSecs 30] else [LoopEvent.pollOk]) }

/-- The state of a freshly constructed MonitorKeyword: persisted_items = []. -/
def initState : RunState := { seen := [], log := [], events := [] }

/-- MonitorKeyword.scrape_outstanding_items: persisted_items.extend(items);
no notification is dispatched. -/
def scrape_outstanding_items (st : RunState) (items : List String) : RunState :=
  { st with seen := st.seen ++ items }

/-- The monitor state after a successful bootstrap that fetched boot (at most
100 identifiers) and a finite schedule of poll cycles. -/
def monitorState (kw : String) (boot : List String) (cycles : List Cycle) : RunState :=
  cycles.foldl (stepCycle kw) (scrape_outstanding_items initState boot)

/-- MonitorKeyword.run: scrape_outstanding_items runs OUTSIDE the try of the
poll loop, so an exception raised by the bootstrap fetch propagates and the
run terminates; after a successful bootstrap the loop catches everything. -/
def monitorRun (kw : String) (boot : Except Unit (List String)) (cycles : List Cycle) :
    Except Unit RunState :=
  match boot with
  | Except.error e => Except.error e
  | Except.ok items => Except.ok (monitorState kw items cycles)

/-- State of the Alertzy push channel after construction. -/
structure AlertzyState where
  use_module : Bool
  alertzy_key : Option String
deriving DecidableEq, Repr

/-- Alertzy constructor: use_module starts true and is cleared when the key
flag is absent or empty (Python falsiness of the flag value). -/
def alertzyInit (key : Option String) : AlertzyState :=
  match key with
  | none => { use_module := false, alertzy_key := none }
  | some k =>
    if k == "" then { use_module := false, alertzy_key := some k }
    else { use_module := true, alertzy_key := some k }

/-- The requests.post call to the Alertzy endpoint: raises iff the transport
fails. -/
def alertzyPost (transportFails : Bool) : Except Unit Unit :=
  if transportFails then Except.error () else Except.ok ()

/-- Alertzy.send_notification: when the module is in use, any transport
exception is caught and False returned, else True; when the module is not in
use the body is skipped and the Python function returns None. -/
def send_notification (st : AlertzyState) (transportFails : Bool) : Option Bool :=
  if st.use_module then
    match alertzyPost transportFails with
    | Except.error _ => some false
    | Except.ok _ => some true
  else none

/-- One monitor's configuration as constructed by main. -/
structure MonitorCfg where
  keyword : String
  price_min : Int
  price_max : Int
deriving DecidableEq, Repr

/-- main: assert len(min_prices) == len(max_prices); assert every min < max;
then one MonitorKeyword per entry of zip(keywords, min_prices, max_prices).
A failed assert terminates the process before any monitor is constructed. -/
def mainStartup (keywords : List String) (min_prices max_prices : List Int) :
    Except String (List MonitorCfg) :=
  if min_prices.length = max_prices.length then
    if (min_prices.zip max_prices).all (fun p => decide (p.1 < p.2)) then
      Except.ok ((keywords.zip (min_prices.zip max_prices)).map
        (fun kp => { keyword := kp.1.trim, price_min := kp.2.1, price_max := kp.2.2 }))
    else Except.error "AssertionError: some min price is not below its max price"
  else Except.error "AssertionError: min and max price lists differ in length"

/-- Bool-valued success of a startup attempt. -/
def startupOk (e : Except String (List MonitorCfg)) : Bool :=
  match e with
  | Except.ok _ => true
  | Except.error _ => false

/-! ## Substring correctness -/

theorem charsStartWith_iff (p : List Char) : ∀ s : List Char,
    charsStartWith p s = true ↔ ∃ r, s = p ++ r := by
  induction p with
  | nil =>
    intro s
    simp [charsStartWith]
  | cons a p ih =>
    intro s
    cases s with
    | nil =>
      simp [charsStartWith]
    | cons b s' =>
      simp only [charsStartWith, Bool.and_eq_true, beq_iff_eq, ih]
      constructor
      · rintro ⟨hab, r, hr⟩
        exact ⟨r, by simp [hr, hab]⟩
      · rintro ⟨r, hr⟩
        rw [List.cons_append] at hr
        obtain ⟨h1, h2⟩ := List.cons.inj hr
        exact ⟨h1.symm, r, h2⟩

theorem charsContain_iff (n : List Char) : ∀ s : List Char,
    charsContain n s = true ↔ ∃ l r, s = l ++ n ++ r := by
  intro s
  induction s with
  | nil =>
    simp only [charsContain, charsStartWith_iff]
    constructor
    · rintro ⟨r, hr⟩
      exact ⟨[], r, by simpa using hr⟩
    · rintro ⟨l, r, hr⟩
      obtain ⟨h1, h2⟩ := List.append_eq_nil.mp hr.symm
      obtain ⟨h3, h4⟩ := List.append_eq_nil.mp h1
      exact ⟨[], by simp [h4]⟩
  | cons b s' ih =>
    simp only [charsContain, Bool.or_eq_true, charsStartWith_iff, ih]
    constructor
    · rintro (⟨r, hr⟩ | ⟨l, r, hr⟩)
      · exact ⟨[], r, by simpa using hr⟩
      · exact ⟨b :: l, r, by simp [hr]⟩
    · rintro ⟨l, r, hr⟩
      cases l with
      | nil => exact Or.inl ⟨r, by simpa using hr⟩
      | cons x l' =>
        rw [List.cons_append, List.cons_append] at hr
        obtain ⟨h1, h2⟩ := List.cons.inj hr
        exact Or.inr ⟨l', r, by simp [h2]⟩

theorem strContainsCI_iff (haystack needle : String) :
    strContainsCI haystack needle = true ↔
      ∃ l r, lowerChars haystack = l ++ lowerChars needle ++ r :=
  charsContain_iff (lowerChars needle) (lowerChars haystack)

/-! ## Shape of the new-item loop -/

/-- The loop processes an initial run t of its worklist: all of t is appended
to the seen list, exactly the qualifying members of t are dispatched, and when
no exception escapes t is the whole worklist. -/
theorem processNew_shape (kw : String) (c : Cycle) : ∀ (l seen : List String),
    ∃ t, t <+: l ∧ (processNew kw c seen l).1 = seen ++ t ∧
      (processNew kw c seen l).2.1 = t.filter (fun x => qualifies kw c x) ∧
      ((processNew kw c seen l).2.2 = false → t = l) := by
  intro l
  induction l with
  | nil =>
    intro seen
    exact ⟨[], List.prefix_rfl, by simp [processNew], by simp [processNew], fun _ => rfl⟩
  | cons x rest ih =>
    intro seen
    simp only [processNew]
    cases hd : c.detail x with
    | error e =>
      refine ⟨[x], ⟨rest, rfl⟩, by simp, ?_, by simp⟩
      simp [qualifies, hd]
    | ok item =>
      by_cases hm : matchPred kw item = true
      · by_cases he : c.emailExn x = true
        · refine ⟨[x], ⟨rest, rfl⟩, by simp [hm, he], ?_, by simp [hm, he]⟩
          simp [hm, he, qualifies, hd]
        · obtain ⟨t, ht, h1, h2, h3⟩ := ih (seen ++ [x])
          refine ⟨x :: t, by simpa using ht, ?_, ?_, ?_⟩
          · simp [hm, he, h1]
          · simp only [hm, if_true, he, if_false, List.filter_cons]
            have hq : qualifies kw c x = true := by simp [qualifies, hd, hm]
            simp [hq, h2]
          · intro hr
            simp only [hm, if_true, he, if_false] at hr
            simp [h3 hr]
      · obtain ⟨t, ht, h1, h2, h3⟩ := ih (seen ++ [x])
        refine ⟨x :: t, by simpa using ht, ?_, ?_, ?_⟩
        · simp [hm, h1]
        · simp only [hm, if_false, List.filter_cons]
          have hq : qualifies kw c x = false := by simp [qualifies, hd, hm]
          simp [hq, h2]
        · intro hr
          simp only [hm, if_false] at hr
          simp [h3 hr]

/-! ## Facts about the set difference and one poll cycle -/

theorem mem_newItems (fp seen : List String) (x : String) :
    x ∈ newItems fp seen ↔ x ∈ fp ∧ x ∉ seen := by
  simp [newItems]

theorem nodup_newItems (fp seen : List String) : (newItems fp seen).Nodup :=
  (List.nodup_dedup fp).filter _

/-- Shape of one call of check_for_new_items: the cycle processes an initial
run t of the new identifiers (all of them when no exception escaped), appends
exactly t to the seen list and dispatches exactly the qualifying members of t. -/
theorem check_shape (kw : String) (seen : List String) (c : Cycle) :
    ∃ t, t <+: newItems c.firstPage seen ∧
      (check_for_new_items kw seen c).1 = seen ++ t ∧
      notifsOf kw seen c = t.filter (fun x => qualifies kw c x) ∧
      (raisedOf kw seen c = false → t = newItems c.firstPage seen) := by
  unfold notifsOf raisedOf check_for_new_items
  by_cases h : c.firstPageExn = true
  · exact ⟨[], List.nil_prefix, by simp [h], by simp [h], by simp [h]⟩
  · simp only [h, if_false]
    have h' : c.firstPageExn = false := by simpa using h
    simp only [h', Bool.false_eq_true, if_false]
    exact processNew_shape kw c (newItems c.firstPage seen) seen

theorem seen_prefix_check (kw : String) (seen : List String) (c : Cycle) :
    seen <+: (check_for_new_items kw seen c).1 := by
  obtain ⟨t, -, h1, -, -⟩ := check_shape kw seen c
  exact h1 ▸ List.prefix_append seen t

theorem notifsOf_nodup (kw : String) (seen : List String) (c : Cycle) :
    (notifsOf kw seen c).Nodup := by
  obtain ⟨t, ht, -, h2, -⟩ := check_shape kw seen c
  exact h2 ▸ ((ht.sublist.nodup (nodup_newItems c.firstPage seen)).filter _)

theorem mem_notifsOf (kw : String) (seen : List String) (c : Cycle) (x : String)
    (h : x ∈ notifsOf kw seen c) :
    x ∈ c.firstPage ∧ x ∉ seen ∧ x ∈ (check_for_new_items kw seen c).1 ∧
      qualifies kw c x = true := by
  obtain ⟨t, ht, h1, h2, -⟩ := check_shape kw seen c
  rw [h2, List.mem_filter] at h
  obtain ⟨hxt, hq⟩ := h
  have hxnew : x ∈ newItems c.firstPage seen := ht.subset hxt
  rw [mem_newItems] at hxnew
  exact ⟨hxnew.1, hxnew.2, h1 ▸ List.mem_append_right seen hxt, hq⟩

/-! ## Facts about the run loop -/

theorem stepCycle_seen (kw : String) (st : RunState) (c : Cycle) :
    (stepCycle kw st c).seen = (check_for_new_items kw st.seen c).1 := rfl

theorem stepCycle_log (kw : String) (st : RunState) (c : Cycle) :
    (stepCycle kw st c).log = st.log ++ notifsOf kw st.seen c := rfl

theorem stepCycle_seen_grows (kw : String) (st : RunState) (c : Cycle) :
    st.seen <+: (stepCycle kw st c).seen :=
  seen_prefix_check kw st.seen c

theorem foldl_seen_grows (kw : String) (cs : List Cycle) : ∀ st : RunState,
    st.seen <+: (cs.foldl (stepCycle kw) st).seen := by
  induction cs with
  | nil => intro st; exact List.prefix_rfl
  | cons c cs ih =>
    intro st
    exact (stepCycle_seen_grows kw st c).trans (ih (stepCycle kw st c))

/-- Invariant carried over the run loop: the notification log never repeats an
identifier, and every notified identifier sits in the seen list. -/
theorem foldl_log_invariant (kw : String) (cs : List Cycle) : ∀ st : RunState,
    st.log.Nodup → (∀ x, x ∈ st.log → x ∈ st.seen) →
      (cs.foldl (stepCycle kw) st).log.Nodup ∧
      (∀ x, x ∈ (cs.foldl (stepCycle kw) st).log → x ∈ (cs.foldl (stepCycle kw) st).seen) := by
  induction cs with
  | nil => intro st h1 h2; exact ⟨h1, h2⟩
  | cons c cs ih =>
    intro st h1 h2
    simp only [List.foldl_cons]
    refine ih (stepCycle kw st c) ?_ ?_
    · rw [stepCycle_log]
      refine h1.append (notifsOf_nodup kw st.seen c) ?_
      intro x hx hx'
      exact (mem_notifsOf kw st.seen c x hx').2.1 (h2 x hx)
    · intro x hx
      rw [stepCycle_log, List.mem_append] at hx
      rw [stepCycle_seen]
      rcases hx with hx | hx
      · exact (seen_prefix_check kw st.seen c).subset (h2 x hx)
      · exact (mem_notifsOf kw st.seen c x hx).2.2.1

/-- Once an identifier is in the seen list, later cycles leave its count in
the log unchanged (it is never notified again) and keep it in the seen list. -/
theorem foldl_seen_no_renotify (kw : String) (cs : List Cycle) : ∀ (st : RunState) (x : String),
    x ∈ st.seen →
      (cs.foldl (stepCycle kw) st).log.count x = st.log.count x ∧
      x ∈ (cs.foldl (stepCycle kw) st).seen := by
  induction cs with
  | nil => intro st x hx; exact ⟨rfl, hx⟩
  | cons c cs ih =>
    intro st x hx
    simp only [List.foldl_cons]
    have hx' : x ∈ (stepCycle kw st c).seen :=
      (stepCycle_seen_grows kw st c).subset hx
    obtain ⟨hcount, hmem⟩ := ih (stepCycle kw st c) x hx'
    refine ⟨?_, hmem⟩
    rw [hcount, stepCycle_log, List.count_append]
    have hnot : x ∉ notifsOf kw st.seen c := by
      intro hcon
      exact (mem_notifsOf kw st.seen c x hcon).2.1 hx
    simp [List.count_eq_zero_of_not_mem hnot]

theorem stepCycle_events (kw : String) (st : RunState) (c : Cycle) :
    (stepCycle kw st c).events = st.events ++ [LoopEvent.sleepSecs 60] ++
      (if raisedOf kw st.seen c then [LoopEvent.exnLogged, LoopEvent.sleepSecs 30]
        else [LoopEvent.pollOk]) := rfl

/-- Every scheduled cycle contributes exactly one poll-interval sleep: no
exception ever stops the loop from reaching the next cycle. -/
theorem foldl_events_sleep_count (kw : String) (cs : List Cycle) : ∀ st : RunState,
    (cs.foldl (stepCycle kw) st).events.count (LoopEvent.sleepSecs 60)
      = st.events.count (LoopEvent.sleepSecs 60) + cs.length := by
  induction cs with
  | nil => intro st; simp
  | cons c cs ih =>
    intro st
    simp only [List.foldl_cons, List.length_cons]
    rw [ih, stepCycle_events]
    by_cases h : raisedOf kw st.seen c = true
    · simp [h, List.count_append, List.count_cons]
      omega
    · simp only [Bool.not_eq_true] at h
      simp [h, List.count_append, List.count_cons]
      omega

/-! ## Concrete inputs for spot checks -/

/-- A detail record that fails the match predicate. -/
def demoItem : Item :=
  { name := "X", price := 1, url := "u", desc := "d", url_photo := "p",
    local_url := "l", is_new := false, in_stock := false }

/-- A cycle whose first page is A, B, C, every detail fetch succeeding with a
non-qualifying item and no e-mail failure. -/
def demoCycle : Cycle :=
  { firstPageExn := false, firstPage := ["A", "B", "C"],
    detail := fun _ => Except.ok demoItem, emailExn := fun _ => false }

/-- A cycle in which every detail fetch raises. -/
def demoRaiseCycle : Cycle :=
  { firstPageExn := false, firstPage := ["B"],
    detail := fun _ => Except.error (), emailExn := fun _ => false }

/-- An in-stock, new "Nintendo Switch Lite" listing. -/
def liteIn : Item :=
  { name := "Nintendo Switch Lite", price := 200, url := "N", desc := "d",
    url_photo := "p", local_url := "l", is_new := true, in_stock := true }

/-- The same listing out of stock. -/
def liteOut : Item :=
  { liteIn with in_stock := false }

/-- A cycle offering the out-of-stock listing as identifier N. -/
def liteOutCycle : Cycle :=
  { firstPageExn := false, firstPage := ["N"],
    detail := fun _ => Except.ok liteOut, emailExn := fun _ => false }

/-- A cycle offering an identifier N whose detail qualifies for keyword k. -/
def demoNotifyCycle : Cycle :=
  { firstPageExn := false, firstPage := ["N"],
    detail := fun _ => Except.ok
      { name := "k1", price := 1, url := "N", desc := "d", url_photo := "p",
        local_url := "l", is_new := true, in_stock := true },
    emailExn := fun _ => false }

/-! ## The claims -/

/-- C1: in a poll cycle the identifiers processed as new are exactly the
first-page identifiers minus the seen set, and after a completed cycle the
seen set contains the old seen set and every first-page identifier, whatever
the match predicate decided for each item. -/
theorem checkCycle_diff (kw : String) (seen : List String) (c : Cycle) :
    (∀ x, x ∈ newItems c.firstPage seen ↔ x ∈ c.firstPage ∧ x ∉ seen) ∧
    (raisedOf kw seen c = false →
      ∀ x, x ∈ seen ∨ x ∈ c.firstPage → x ∈ (check_for_new_items kw seen c).1) := by
  refine ⟨fun x => mem_newItems c.firstPage seen x, ?_⟩
  intro hr x hx
  obtain ⟨t, ht, h1, h2, h3⟩ := check_shape kw seen c
  rw [h1, h3 hr]
  rcases hx with hx | hx
  · exact List.mem_append_left _ hx
  · by_cases hs : x ∈ seen
    · exact List.mem_append_left _ hs
    · exact List.mem_append_right _ ((mem_newItems _ _ x).mpr ⟨hx, hs⟩)

/-- Spot check of C1: first page A, B, C against seen set containing A. -/
theorem checkCycle_diff_spot :
    ("B" ∈ newItems ["A", "B", "C"] ["A"] ∧ "A" ∉ newItems ["A", "B", "C"] ["A"]) ∧
    ("A" ∈ (check_for_new_items "k" ["A"] demoCycle).1 ∧
      "B" ∈ (check_for_new_items "k" ["A"] demoCycle).1) := by
  refine ⟨⟨?_, ?_⟩, ?_, ?_⟩
  · exact ((checkCycle_diff "k" ["A"] demoCycle).1 "B").mpr ⟨by decide, by decide⟩
  · intro hcon
    exact (((checkCycle_diff "k" ["A"] demoCycle).1 "A").mp hcon).2 (by decide)
  · exact (checkCycle_diff "k" ["A"] demoCycle).2 (by decide) "A" (Or.inl (by decide))
  · exact (checkCycle_diff "k" ["A"] demoCycle).2 (by decide) "B" (Or.inr (by decide))

/-- C3: over any continuation of a run (raising cycles included) the seen list
only ever extends: the earlier list is a prefix of the later one, its length
never shrinks and no identifier is lost. -/
theorem seen_monotone (kw : String) (boot : List String) (a b : List Cycle) :
    (monitorState kw boot a).seen <+: (monitorState kw boot (a ++ b)).seen ∧
    (monitorState kw boot a).seen.length ≤ (monitorState kw boot (a ++ b)).seen.length ∧
    ∀ x, x ∈ (monitorState kw boot a).seen → x ∈ (monitorState kw boot (a ++ b)).seen := by
  have h : (monitorState kw boot a).seen <+: (monitorState kw boot (a ++ b)).seen := by
    unfold monitorState
    rw [List.foldl_append]
    exact foldl_seen_grows kw b _
  exact ⟨h, h.length_le, fun x hx => h.subset hx⟩

/-- Spot check of C3: a bootstrap identifier survives a raising cycle followed
by a normal cycle. -/
theorem seen_monotone_spot :
    "A" ∈ (monitorState "k" ["A"] ([demoRaiseCycle] ++ [demoCycle])).seen :=
  (seen_monotone "k" ["A"] [demoRaiseCycle] [demoCycle]).2.2 "A" (by decide)

/-- C4: immediately after the bootstrap the seen list is exactly the fetched
identifiers and nothing has been notified or logged. -/
theorem bootstrap_exact (kw : String) (items : List String) :
    (monitorState kw items []).seen = items ∧
    (monitorState kw items []).log = [] ∧
    (monitorState kw items []).events = [] ∧
    monitorRun kw (Except.ok items) [] = Except.ok { seen := items, log := [], events := [] } := by
  simp [monitorState, monitorRun, scrape_outstanding_items, initState]

/-- C2: over any whole run the notification log never holds an identifier
more than once, and once an identifier is in the seen list no later cycle
notifies it again, however often later first pages re-observe it. -/
theorem notify_at_most_once (kw : String) (boot : List String) (a b : List Cycle) (x : String) :
    (monitorState kw boot (a ++ b)).log.count x ≤ 1 ∧
    (x ∈ (monitorState kw boot a).seen →
      (monitorState kw boot (a ++ b)).log.count x = (monitorState kw boot a).log.count x ∧
      x ∈ (monitorState kw boot (a ++ b)).seen) := by
  have hinv := foldl_log_invariant kw (a ++ b) (scrape_outstanding_items initState boot)
    (by simp [scrape_outstanding_items, initState])
    (by simp [scrape_outstanding_items, initState])
  constructor
  · exact List.nodup_iff_count_le_one.mp hinv.1 x
  · intro hx
    have h := foldl_seen_no_renotify kw b (monitorState kw boot a) x hx
    unfold monitorState at h ⊢
    rw [List.foldl_append]
    exact h

/-- Spot check of C2: the same qualifying first page polled twice notifies N
exactly once. -/
theorem notify_at_most_once_spot :
    (monitorState "k" ["A"] ([demoNotifyCycle] ++ [demoNotifyCycle])).log.count "N" ≤ 1 ∧
    (monitorState "k" ["A"] ([demoNotifyCycle] ++ [demoNotifyCycle])).log.count "N"
      = (monitorState "k" ["A"] [demoNotifyCycle]).log.count "N" :=
  ⟨(notify_at_most_once "k" ["A"] [demoNotifyCycle] [demoNotifyCycle] "N").1,
    ((notify_at_most_once "k" ["A"] [demoNotifyCycle] [demoNotifyCycle] "N").2 (by decide)).1⟩

/-- C5: an item qualifies exactly when the keyword occurs case-insensitively
inside the item name and the item is new and in stock; a new identifier whose
detail does not qualify is never notified, yet a completed cycle still marks
it seen. -/
theorem matchPred_spec (kw : String) (item : Item) (seen : List String) (c : Cycle) (x : String) :
    (matchPred kw item = true ↔
      ((∃ l r, lowerChars item.name = l ++ lowerChars kw ++ r) ∧
        item.is_new = true ∧ item.in_stock = true)) ∧
    (x ∈ newItems c.firstPage seen → qualifies kw c x = false →
      x ∉ notifsOf kw seen c ∧
      (raisedOf kw seen c = false → x ∈ (check_for_new_items kw seen c).1)) := by
  constructor
  · unfold matchPred
    rw [Bool.and_eq_true, Bool.and_eq_true, strContainsCI_iff]
    tauto
  · intro hx hq
    obtain ⟨t, ht, h1, h2, h3⟩ := check_shape kw seen c
    constructor
    · rw [h2, List.mem_filter]
      rintro ⟨-, hq'⟩
      simp [hq] at hq'
    · intro hr
      rw [h1, h3 hr]
      exact List.mem_append_right seen hx

/-- Spot check of C5: "Nintendo Switch Lite" with keyword "switch" qualifies
when new and in stock; out of stock it is dropped silently but still marked
seen. -/
theorem matchPred_spec_spot :
    matchPred "switch" liteIn = true ∧
    matchPred "switch" liteOut = false ∧
    "N" ∉ notifsOf "switch" [] liteOutCycle ∧
    "N" ∈ (check_for_new_items "switch" [] liteOutCycle).1 := by
  refine ⟨by decide, by decide, ?_, ?_⟩
  · exact ((matchPred_spec "switch" liteIn [] liteOutCycle "N").2 (by decide) (by decide)).1
  · exact ((matchPred_spec "switch" liteIn [] liteOutCycle "N").2 (by decide) (by decide)).2
      (by decide)

/-- A cycle whose single item qualifies for keyword k but whose e-mail
dispatch raises. -/
def demoEmailFailCycle : Cycle :=
  { firstPageExn := false, firstPage := ["M"],
    detail := fun _ => Except.ok
      { name := "k2", price := 1, url := "M", desc := "d", url_photo := "p",
        local_url := "l", is_new := true, in_stock := true },
    emailExn := fun _ => true }

/-- C6: startup validation fails fast, before any monitor exists: mismatched
price-list lengths are rejected, any pair with min not strictly below max is
rejected; filters (10, 5) are rejected and (10, 20), (30, 50) accepted. -/
theorem config_validation (kws : List String) (mins maxs : List Int) :
    (mins.length ≠ maxs.length → startupOk (mainStartup kws mins maxs) = false) ∧
    (∀ mn mx : Int, (mn, mx) ∈ mins.zip maxs → ¬ mn < mx →
      startupOk (mainStartup kws mins maxs) = false) ∧
    startupOk (mainStartup kws [10] [5]) = false ∧
    ∃ ms, mainStartup kws [(10 : Int), 30] [20, 50] = Except.ok ms := by
  refine ⟨?_, ?_, ?_, ⟨_, rfl⟩⟩
  · intro h
    simp [mainStartup, h, startupOk]
  · intro mn mx hmem hlt
    unfold mainStartup
    by_cases hlen : mins.length = maxs.length
    · have hall : ((mins.zip maxs).all fun p => decide (p.1 < p.2)) = false := by
        rw [List.all_eq_false]
        exact ⟨(mn, mx), hmem, by simpa using hlt⟩
      simp [hlen, hall, startupOk]
    · simp [hlen, startupOk]
  · simp [mainStartup, startupOk]

/-- Spot check of C6: a length mismatch and an inverted pair are both
rejected. -/
theorem config_validation_spot :
    startupOk (mainStartup ["a"] [1, 2] [3]) = false ∧
    startupOk (mainStartup ["a"] [10] [5]) = false :=
  ⟨(config_validation ["a"] [1, 2] [3]).1 (by decide),
    (config_validation ["a"] [10] [5]).2.1 10 5 (by decide) (by decide)⟩

/-- C7: a cycle in which an exception escapes (an e-mail dispatch failure
included) is caught and logged, the 30 second cool-down follows, and the loop
resumes: a later successful cycle is processed normally, its notifications
appended to the log. -/
theorem pollLoop_survives_exception (kw : String) (st : RunState) (c c' : Cycle)
    (h : raisedOf kw st.seen c = true) :
    (stepCycle kw st c).events = st.events ++
      [LoopEvent.sleepSecs 60, LoopEvent.exnLogged, LoopEvent.sleepSecs 30] ∧
    (raisedOf kw (stepCycle kw st c).seen c' = false →
      (stepCycle kw (stepCycle kw st c) c').log
          = (stepCycle kw st c).log ++ notifsOf kw (stepCycle kw st c).seen c' ∧
      (stepCycle kw (stepCycle kw st c) c').events
          = (stepCycle kw st c).events ++ [LoopEvent.sleepSecs 60, LoopEvent.pollOk]) := by
  constructor
  · rw [stepCycle_events, h]
    simp
  · intro hok
    refine ⟨stepCycle_log kw (stepCycle kw st c) c', ?_⟩
    rw [stepCycle_events, hok]
    simp

/-- Spot check of C7: an e-mail failure cycle is survived and the next cycle
is processed. -/
theorem pollLoop_survives_exception_spot :
    (stepCycle "k" initState demoEmailFailCycle).events
        = [LoopEvent.sleepSecs 60, LoopEvent.exnLogged, LoopEvent.sleepSecs 30] ∧
    (stepCycle "k" (stepCycle "k" initState demoEmailFailCycle) demoNotifyCycle).log
        = (stepCycle "k" initState demoEmailFailCycle).log
            ++ notifsOf "k" (stepCycle "k" initState demoEmailFailCycle).seen demoNotifyCycle := by
  have h := pollLoop_survives_exception "k" initState demoEmailFailCycle demoNotifyCycle
    (by decide)
  exact ⟨by simpa [initState] using h.1, (h.2 (by decide)).1⟩

/-- C8 counterexample: an exception raised by the bootstrap fetch is NOT
caught: the run terminates before entering the poll loop, the scheduled
cycles never run. -/
theorem bootstrap_exception_uncaught :
    monitorRun "k" (Except.error ()) [demoNotifyCycle] = Except.error () := rfl

/-- C8 amended: after a successful bootstrap no exception ever escapes the
run: every finite schedule of cycles yields a final state and every scheduled
cycle is reached (one poll-interval sleep each); an exception during the
bootstrap fetch, however, propagates and terminates the monitor. -/
theorem runtime_errors_caught_after_bootstrap (kw : String) (items : List String)
    (cycles : List Cycle) :
    monitorRun kw (Except.ok items) cycles = Except.ok (monitorState kw items cycles) ∧
    (monitorState kw items cycles).events.count (LoopEvent.sleepSecs 60) = cycles.length ∧
    monitorRun kw (Except.error ()) cycles = Except.error () := by
  refine ⟨rfl, ?_, rfl⟩
  unfold monitorState
  rw [foldl_events_sleep_count]
  simp [scrape_outstanding_items, initState]

/-- C9 counterexample: with no push credential configured, the Python
function skips its body and falls off the end: it returns None, not a
boolean, whatever the transport would have done. -/
theorem send_notification_none_when_unconfigured :
    send_notification (alertzyInit none) true = none ∧
    send_notification (alertzyInit none) false = none := ⟨rfl, rfl⟩

/-- C9 amended: when the channel is configured, send_notification never
propagates the transport exception: it returns False exactly on transport
failure and True on success; when not configured it dispatches nothing and
returns None. -/
theorem send_notification_spec (key : Option String) (fails : Bool) :
    ((alertzyInit key).use_module = true →
      send_notification (alertzyInit key) fails = some (!fails)) ∧
    ((alertzyInit key).use_module = false →
      send_notification (alertzyInit key) fails = none) := by
  constructor
  · intro h
    cases fails <;> simp [send_notification, h, alertzyPost]
  · intro h
    simp [send_notification, h]

/-- Spot check of C9 amended: configured key K. -/
theorem send_notification_spec_spot :
    send_notification (alertzyInit (some "K")) true = some false ∧
    send_notification (alertzyInit (some "K")) false = some true ∧
    send_notification (alertzyInit none) true = none :=
  ⟨(send_notification_spec (some "K") true).1 (by decide),
    (send_notification_spec (some "K") false).1 (by decide),
    (send_notification_spec none true).2 (by decide)⟩

/-- C10: with valid price lists the startup is accepted for ANY keywords list
and creates one monitor per entry of the three-way zip: exactly
min(len(keywords), len(min_prices), len(max_prices)) monitors; excess entries
of longer lists are silently dropped. -/
theorem monitor_count_min (kws : List String) (mins maxs : List Int)
    (hlen : mins.length = maxs.length)
    (hlt : ∀ mn mx : Int, (mn, mx) ∈ mins.zip maxs → mn < mx) :
    ∃ ms, mainStartup kws mins maxs = Except.ok ms ∧
      ms.length = min kws.length (min mins.length maxs.length) := by
  have hall : ((mins.zip maxs).all fun p => decide (p.1 < p.2)) = true := by
    rw [List.all_eq_true]
    rintro ⟨mn, mx⟩ hmem
    simpa using hlt mn mx hmem
  refine ⟨(kws.zip (mins.zip maxs)).map
      (fun kp => { keyword := kp.1.trim, price_min := kp.2.1, price_max := kp.2.2 }), ?_, ?_⟩
  · simp [mainStartup, hlen, hall]
  · simp [List.length_zip]

/-- Spot check of C10: three keywords but a single price pair yield exactly
one monitor, with no startup rejection. -/
theorem monitor_count_min_spot :
    ∃ ms, mainStartup ["a", "b", "c"] [1] [2] = Except.ok ms ∧ ms.length = 1 := by
  obtain ⟨ms, h1, h2⟩ := monitor_count_min ["a", "b", "c"] [1] [2] (by decide)
    (by
      intro mn mx hmem
      simp at hmem
      omega)
  exact ⟨ms, h1, h2.trans (by decide)⟩

end MercariMonitor
